import Mathlib

/-!
Shallow embedding of the query/aggregation layer of the KB library-statistics
MCP server (source: the JSON-LD API client module).  JavaScript numbers are
modelled by `ℚ` (exact arithmetic; every concrete value exercised here is
exactly representable as a double, so the model agrees with the code on them).
JavaScript exceptions are modelled by `Except`, `undefined`/`null` by `Option`,
and the insertion-ordered `Map` by an association list with in-place update.
`[...values].sort((a, b) => a - b)` is a stable ascending sort of numbers; it
is modelled by `List.insertionSort (· ≤ ·)` (stability is irrelevant on a list
of numbers, where equal elements are indistinguishable).
-/

namespace KB

/-- A JavaScript value as it occurs in the `value` field of an observation:
either a number or a non-numeric value (modelled by its string form).  Only
the numeric/non-numeric distinction matters to the code under study. -/
inductive JValue where
  | num (q : ℚ)
  | str (s : String)
deriving DecidableEq, Repr

/-- The `library` field of an observation: either a plain string identifier or
a structured object with optional `@id` and `name` fields. -/
inductive LibField where
  | str (s : String)
  | obj (atId : Option String) (name : Option String)
deriving DecidableEq, Repr

/-- One observation record from the JSON-LD `@graph` array.  Absent fields are
`none`. -/
structure Observation where
  atId : String := ""
  term : Option String := none
  value : Option JValue := none
  library : Option LibField := none
  sampleYear : Option Int := none
  targetGroup : Option String := none
  modified : Option String := none
deriving DecidableEq, Repr

/-- A term-definition record.  Only its identity matters to the cache logic
studied here. -/
structure Term where
  atId : String := ""
deriving DecidableEq, Repr

/-! ## Statistics engine (`calculateStatistics`) -/

/-- The record returned by `calculateStatistics`.  The source also computes
`standardDeviation = Math.sqrt(variance)`; the square root is irrational in
general and no claim mentions it, so that one field is not modelled. -/
structure Statistics where
  count : Nat
  sum : ℚ
  mean : ℚ
  median : ℚ
  mode : Option ℚ
  min : ℚ
  max : ℚ
  range : ℚ
  variance : ℚ
  percentile25 : ℚ
  percentile75 : ℚ
deriving DecidableEq, Repr

/-- One step of building the frequency `Map`: `frequency.set(v, (frequency.get(v) || 0) + 1)`.
A JavaScript `Map` keeps keys in insertion order and updates in place, which an
association list models exactly. -/
def insertFreq : List (ℚ × Nat) → ℚ → List (ℚ × Nat)
  | [], v => [(v, 1)]
  | (k, c) :: rest, v =>
    if k = v then (k, c + 1) :: rest else (k, c) :: insertFreq rest v

/-- The frequency map of `values`, built by `values.forEach(v => frequency.set(v, ...))`:
keys appear in order of first occurrence in `values`. -/
def freqMap (values : List ℚ) : List (ℚ × Nat) := values.foldl insertFreq []

/-- `Math.max(...l)` on a list of naturals; the code only applies it to the
non-empty list of frequencies, so the `[]` case (JS `-Infinity`) is arbitrary. -/
def jsMaxNat : List Nat → Nat
  | [] => 0
  | x :: xs => xs.foldl max x

/-- `calculateStatistics` from the source, field by field.  The thrown
`Error` on empty input is modelled by `Except.error` with the source's
message.  `Math.floor(count * 0.25)` is `Nat.floor` over exact arithmetic
(0.25 and 0.75 are exact doubles, and `count * p` is exact for any realistic
array length). -/
def calculateStatistics (values : List ℚ) : Except String Statistics :=
  if values.length = 0 then
    .error "Cannot calculate statistics for empty array"
  else
    let sorted := List.insertionSort (· ≤ ·) values
    let count := values.length
    let sum := values.foldl (· + ·) 0
    let mean := sum / (count : ℚ)
    let median :=
      if count % 2 = 0 then
        (sorted.getD (count / 2 - 1) 0 + sorted.getD (count / 2) 0) / 2
      else
        sorted.getD (count / 2) 0
    let frequency := freqMap values
    let maxFreq := jsMaxNat (frequency.map (fun e => e.2))
    let modes := (frequency.filter (fun e => e.2 == maxFreq)).map (fun e => e.1)
    let mode := if modes.length = count then none else modes.head?
    let variance := values.foldl (fun acc val => acc + (val - mean) ^ 2) 0 / (count : ℚ)
    let minV := sorted.getD 0 0
    let maxV := sorted.getD (count - 1) 0
    let range := maxV - minV
    let percentile25 := sorted.getD (Nat.floor ((count : ℚ) * (25 / 100))) 0
    let percentile75 := sorted.getD (Nat.floor ((count : ℚ) * (75 / 100))) 0
    .ok
      { count := count, sum := sum, mean := mean, median := median, mode := mode,
        min := minV, max := maxV, range := range, variance := variance,
        percentile25 := percentile25, percentile75 := percentile75 }

/-! ## Helper lemmas for the statistics engine -/

/-- The nearest-rank index for the 25th percentile is integer division by 4. -/
lemma floor_mul_quarter (n : ℕ) : Nat.floor ((n : ℚ) * (25 / 100)) = n / 4 := by
  have h : ((n : ℚ) * (25 / 100)) = (n : ℚ) / (4 : ℕ) := by push_cast; ring

  rw [h, Nat.floor_div_nat, Nat.floor_natCast]

/-- The nearest-rank index for the 75th percentile is `3 * n / 4`. -/
lemma floor_mul_three_quarter (n : ℕ) : Nat.floor ((n : ℚ) * (75 / 100)) = 3 * n / 4 := by
  have h : ((n : ℚ) * (75 / 100)) = ((3 * n : ℕ) : ℚ) / (4 : ℕ) := by push_cast; ring

  rw [h, Nat.floor_div_nat, Nat.floor_natCast]

/-- In a sorted list, entries at smaller indices are smaller. -/
lemma getD_le_getD_sorted (S : List ℚ) (hs : List.Sorted (· ≤ ·) S) {i j : ℕ}
    (hij : i ≤ j) (hj : j < S.length) : S.getD i 0 ≤ S.getD j 0 := by
  have hi : i < S.length := lt_of_le_of_lt hij hj
  rw [List.getD_eq_getElem S 0 hi, List.getD_eq_getElem S 0 hj]
  rcases lt_or_eq_of_le hij with hlt | heq
  · exact List.pairwise_iff_get.mp hs ⟨i, hi⟩ ⟨j, hj⟩ hlt
  · subst heq; exact le_refl _

/-- Every element of a sorted list lies between its first and its last entry. -/
lemma mem_bounds_of_sorted (S : List ℚ) (hs : List.Sorted (· ≤ ·) S) :
    ∀ x ∈ S, S.getD 0 0 ≤ x ∧ x ≤ S.getD (S.length - 1) 0 := by
  intro x hx
  obtain ⟨⟨i, hi⟩, hget⟩ := List.mem_iff_get.mp hx
  have hx' : x = S.getD i 0 := by
    rw [List.getD_eq_getElem S 0 hi, ← hget]; simp [List.get_eq_getElem]
  subst hx'
  constructor
  · exact getD_le_getD_sorted S hs (Nat.zero_le i) hi
  · exact getD_le_getD_sorted S hs (by omega) (by omega)

/-! ## Claim theorems: statistics engine -/

/-- C2: `calculateStatistics` applied to an empty list of numbers always throws
(`Except.error` with the source's message); it never returns a zeroed or
default `Statistics` record. -/
theorem c2_empty_input_throws :
    calculateStatistics [] = .error "Cannot calculate statistics for empty array" := rfl

/-- C3: for every non-empty list of numbers, `percentile25` and `percentile75`
are the sorted values at nearest-rank indices `floor(n * 0.25) = n / 4` and
`floor(n * 0.75) = 3 * n / 4` (no interpolation); in particular for
`[1, ..., 10]` they are `3` and `8`. -/
theorem c3_percentiles :
    (∀ V : List ℚ, V.length ≠ 0 →
      ∃ s, calculateStatistics V = .ok s ∧
        s.percentile25 =
          (List.insertionSort (· ≤ ·) V).getD (Nat.floor ((V.length : ℚ) * (25 / 100))) 0 ∧
        s.percentile75 =
          (List.insertionSort (· ≤ ·) V).getD (Nat.floor ((V.length : ℚ) * (75 / 100))) 0 ∧
        Nat.floor ((V.length : ℚ) * (25 / 100)) = V.length / 4 ∧
        Nat.floor ((V.length : ℚ) * (75 / 100)) = 3 * V.length / 4) ∧
    (∃ s, calculateStatistics [1, 2, 3, 4, 5, 6, 7, 8, 9, 10] = .ok s ∧
      s.percentile25 = 3 ∧ s.percentile75 = 8) := by
  constructor
  · intro V h
    simp only [calculateStatistics, if_neg h]
    exact ⟨_, rfl, rfl, rfl, floor_mul_quarter _, floor_mul_three_quarter _⟩
  · have h : ([1, 2, 3, 4, 5, 6, 7, 8, 9, 10] : List ℚ).length ≠ 0 := by decide
    simp only [calculateStatistics, if_neg h]
    refine ⟨_, rfl, ?_, ?_⟩
    · rw [show (([1, 2, 3, 4, 5, 6, 7, 8, 9, 10] : List ℚ).length : ℚ) = ((10 : ℕ) : ℚ) from rfl,
        floor_mul_quarter]
      rfl
    · rw [show (([1, 2, 3, 4, 5, 6, 7, 8, 9, 10] : List ℚ).length : ℚ) = ((10 : ℕ) : ℚ) from rfl,
        floor_mul_three_quarter]
      rfl

/-- C3 witness: the universal part of `c3_percentiles` instantiated at
`[1, ..., 10]`, with its hypothesis discharged concretely. -/
theorem c3_percentiles_witness :
    ([1, 2, 3, 4, 5, 6, 7, 8, 9, 10] : List ℚ).length ≠ 0 ∧
    (∃ s, calculateStatistics [1, 2, 3, 4, 5, 6, 7, 8, 9, 10] = .ok s ∧
      s.percentile25 =
        (List.insertionSort (· ≤ ·) ([1, 2, 3, 4, 5, 6, 7, 8, 9, 10] : List ℚ)).getD
          (Nat.floor ((([1, 2, 3, 4, 5, 6, 7, 8, 9, 10] : List ℚ).length : ℚ) * (25 / 100))) 0 ∧
      s.percentile75 =
        (List.insertionSort (· ≤ ·) ([1, 2, 3, 4, 5, 6, 7, 8, 9, 10] : List ℚ)).getD
          (Nat.floor ((([1, 2, 3, 4, 5, 6, 7, 8, 9, 10] : List ℚ).length : ℚ) * (75 / 100))) 0 ∧
      Nat.floor ((([1, 2, 3, 4, 5, 6, 7, 8, 9, 10] : List ℚ).length : ℚ) * (25 / 100)) =
        ([1, 2, 3, 4, 5, 6, 7, 8, 9, 10] : List ℚ).length / 4 ∧
      Nat.floor ((([1, 2, 3, 4, 5, 6, 7, 8, 9, 10] : List ℚ).length : ℚ) * (75 / 100)) =
        3 * ([1, 2, 3, 4, 5, 6, 7, 8, 9, 10] : List ℚ).length / 4) :=
  ⟨by decide, c3_percentiles.1 [1, 2, 3, 4, 5, 6, 7, 8, 9, 10] (by decide)⟩

/-- C4: for every non-empty list of numbers the returned record satisfies
`min ≤ median ≤ max` and `min ≤ mean ≤ max`. -/
theorem c4_bounds (V : List ℚ) (h : V.length ≠ 0) :
    ∃ s, calculateStatistics V = .ok s ∧
      s.min ≤ s.median ∧ s.median ≤ s.max ∧ s.min ≤ s.mean ∧ s.mean ≤ s.max := by
  simp only [calculateStatistics, if_neg h]
  refine ⟨_, rfl, ?_⟩
  set S := List.insertionSort (· ≤ ·) V with hS
  have hperm : S.Perm V := List.perm_insertionSort _ V
  have hsorted : List.Sorted (· ≤ ·) S := List.sorted_insertionSort _ V
  have hlen : S.length = V.length := hperm.length_eq
  have hpos : 0 < V.length := Nat.pos_of_ne_zero h
  have hbounds : ∀ x ∈ V, S.getD 0 0 ≤ x ∧ x ≤ S.getD (S.length - 1) 0 := by
    intro x hx
    exact mem_bounds_of_sorted S hsorted x (hperm.mem_iff.mpr hx)
  -- median bounds
  have hmed : S.getD 0 0 ≤
      (if V.length % 2 = 0 then
        (S.getD (V.length / 2 - 1) 0 + S.getD (V.length / 2) 0) / 2
      else S.getD (V.length / 2) 0) ∧
      (if V.length % 2 = 0 then
        (S.getD (V.length / 2 - 1) 0 + S.getD (V.length / 2) 0) / 2
      else S.getD (V.length / 2) 0) ≤ S.getD (S.length - 1) 0 := by
    have hhalf : V.length / 2 < S.length := by omega
    have hhalf1 : V.length / 2 - 1 < S.length := by omega
    have hlast : S.length - 1 < S.length := by omega
    have hle1 : V.length / 2 - 1 ≤ S.length - 1 := by omega
    have hle2 : V.length / 2 ≤ S.length - 1 := by omega
    have h1l : S.getD 0 0 ≤ S.getD (V.length / 2 - 1) 0 :=
      getD_le_getD_sorted S hsorted (Nat.zero_le _) hhalf1
    have h2l : S.getD 0 0 ≤ S.getD (V.length / 2) 0 :=
      getD_le_getD_sorted S hsorted (Nat.zero_le _) hhalf
    have h1r : S.getD (V.length / 2 - 1) 0 ≤ S.getD (S.length - 1) 0 :=
      getD_le_getD_sorted S hsorted hle1 hlast
    have h2r : S.getD (V.length / 2) 0 ≤ S.getD (S.length - 1) 0 :=
      getD_le_getD_sorted S hsorted hle2 hlast
    by_cases hpar : V.length % 2 = 0
    · rw [if_pos hpar]
      constructor <;> linarith
    · rw [if_neg hpar]
      exact ⟨h2l, h2r⟩
  -- mean bounds
  have hsum : V.foldl (· + ·) 0 = V.sum := (List.sum_eq_foldl).symm
  have hlow : (V.length : ℚ) * S.getD 0 0 ≤ V.sum := by
    have := List.card_nsmul_le_sum V (S.getD 0 0) (fun x hx => (hbounds x hx).1)
    rwa [nsmul_eq_mul] at this
  have hhigh : V.sum ≤ (V.length : ℚ) * S.getD (S.length - 1) 0 := by
    have := List.sum_le_card_nsmul V (S.getD (S.length - 1) 0) (fun x hx => (hbounds x hx).2)
    rwa [nsmul_eq_mul] at this
  have hcast : (0 : ℚ) < (V.length : ℚ) := by exact_mod_cast hpos
  have hmeanl : S.getD 0 0 ≤ V.foldl (· + ·) 0 / (V.length : ℚ) := by
    rw [hsum, le_div_iff₀ hcast]
    linarith
  have hmeanr : V.foldl (· + ·) 0 / (V.length : ℚ) ≤ S.getD (S.length - 1) 0 := by
    rw [hsum, div_le_iff₀ hcast]
    linarith
  refine ⟨?_, ?_, ?_, ?_⟩
  · exact hmed.1
  · rw [show S.length - 1 = V.length - 1 from by omega] at hmed
    exact hmed.2
  · exact hmeanl
  · rw [show S.length - 1 = V.length - 1 from by omega] at hmeanr
    exact hmeanr

/-! ## Mode characterization (for the mode claim) -/

/-- The distinct values of `l` in order of first occurrence (the insertion
order of the JavaScript frequency `Map`). -/
def dedupF (l : List ℚ) : List ℚ :=
  l.foldl (fun acc v => if v ∈ acc then acc else acc ++ [v]) []

/-- The maximal frequency of any value of `V`, stated over the distinct
values. -/
def maxFreqSpec (V : List ℚ) : Nat :=
  jsMaxNat ((dedupF V).map (fun v => V.count v))

lemma mem_foldl_dedup (l : List ℚ) :
    ∀ (acc : List ℚ) (x : ℚ),
      x ∈ l.foldl (fun acc v => if v ∈ acc then acc else acc ++ [v]) acc ↔
        x ∈ acc ∨ x ∈ l := by
  induction l with
  | nil => intro acc x; simp
  | cons a t ih =>
    intro acc x
    simp only [List.foldl_cons, ih, List.mem_cons]
    by_cases ha : a ∈ acc
    · rw [if_pos ha]
      constructor
      · rintro (h | h)
        · exact Or.inl h
        · exact Or.inr (Or.inr h)
      · rintro (h | h | h)
        · exact Or.inl h
        · exact Or.inl (h ▸ ha)
        · exact Or.inr h
    · rw [if_neg ha]
      simp only [List.mem_append, List.mem_singleton]
      tauto

lemma nodup_foldl_dedup (l : List ℚ) :
    ∀ acc : List ℚ, acc.Nodup →
      (l.foldl (fun acc v => if v ∈ acc then acc else acc ++ [v]) acc).Nodup := by
  induction l with
  | nil => intro acc h; simpa using h
  | cons a t ih =>
    intro acc h
    simp only [List.foldl_cons]
    by_cases ha : a ∈ acc
    · rw [if_pos ha]; exact ih acc h
    · rw [if_neg ha]
      refine ih _ ?_
      simpa [List.nodup_append] using ⟨h, ha⟩

lemma dedupF_nodup (l : List ℚ) : (dedupF l).Nodup :=
  nodup_foldl_dedup l [] List.nodup_nil

lemma mem_dedupF (l : List ℚ) (x : ℚ) : x ∈ dedupF l ↔ x ∈ l := by
  unfold dedupF
  rw [mem_foldl_dedup]
  simp

lemma dedupF_append_singleton (l : List ℚ) (x : ℚ) :
    dedupF (l ++ [x]) =
      if x ∈ dedupF l then dedupF l else dedupF l ++ [x] := by
  unfold dedupF
  rw [List.foldl_append]
  rfl

/-- Inserting `x` into a frequency map represented over a duplicate-free key
list updates the key's count in place or appends a fresh entry at the end. -/
lemma insertFreq_map (ks : List ℚ) (f : ℚ → Nat) (x : ℚ) (hk : ks.Nodup) :
    insertFreq (ks.map (fun v => (v, f v))) x =
      if x ∈ ks then ks.map (fun v => (v, if v = x then f v + 1 else f v))
      else ks.map (fun v => (v, f v)) ++ [(x, 1)] := by
  induction ks with
  | nil => simp [insertFreq]
  | cons k t ih =>
    rw [List.nodup_cons] at hk
    simp only [List.map_cons, insertFreq]
    by_cases hkx : k = x
    · subst hkx
      rw [if_pos rfl, if_pos (List.mem_cons_self _ _), if_pos rfl]
      congr 1
      refine (List.map_congr_left ?_).symm
      intro v hv
      have : ¬ v = k := fun h => hk.1 (h ▸ hv)
      rw [if_neg this]
    · rw [if_neg hkx, ih hk.2]
      by_cases hxt : x ∈ t
      · rw [if_pos hxt, if_pos (List.mem_cons.mpr (Or.inr hxt)), if_neg hkx]
      · have hxkt : ¬ x ∈ k :: t := by
          simp only [List.mem_cons]
          rintro (h | h)
          · exact hkx h.symm
          · exact hxt h
        rw [if_neg hxt, if_neg hxkt]
        rfl

/-- The frequency map built by the source is the list of distinct values in
first-occurrence order, each paired with its total count. -/
lemma freqMap_eq (V : List ℚ) :
    freqMap V = (dedupF V).map (fun v => (v, V.count v)) := by
  induction V using List.reverseRecOn with
  | nil => rfl
  | append_singleton l x ih =>
    unfold freqMap at ih ⊢
    rw [List.foldl_append, List.foldl_cons, List.foldl_nil, ih,
      insertFreq_map (dedupF l) _ x (dedupF_nodup l), dedupF_append_singleton]
    by_cases hx : x ∈ dedupF l
    · rw [if_pos hx, if_pos hx]
      refine List.map_congr_left ?_
      intro v hv
      by_cases hvx : v = x
      · subst hvx
        rw [if_pos rfl, List.count_append]
        simp
      · rw [if_neg hvx, List.count_append]
        have h0 : List.count v [x] = 0 := by
          simp [List.count_singleton', hvx]
        rw [h0, Nat.add_zero]
    · rw [if_neg hx, if_neg hx, List.map_append]
      have hxl : ¬ x ∈ l := fun h => hx ((mem_dedupF l x).mpr h)
      congr 1
      · refine List.map_congr_left ?_
        intro v hv
        have hvx : ¬ v = x := fun h => hx (h ▸ hv)
        rw [List.count_append]
        have h0 : List.count v [x] = 0 := by
          simp [List.count_singleton', hvx]
        rw [h0, Nat.add_zero]
      · simp [List.count_append, List.count_eq_zero_of_not_mem hxl]

lemma foldl_max_mem_cons (xs : List Nat) : ∀ x : Nat, xs.foldl max x ∈ x :: xs := by
  induction xs with
  | nil => intro x; simp
  | cons y ys ih =>
    intro x
    rw [List.foldl_cons]
    rcases max_choice x y with hm | hm <;> rw [hm]
    · have h := ih x
      simp only [List.mem_cons] at h ⊢
      tauto
    · have h := ih y
      simp only [List.mem_cons] at h ⊢
      tauto

lemma jsMaxNat_mem (l : List Nat) (h : l ≠ []) : jsMaxNat l ∈ l := by
  match l, h with
  | x :: xs, _ => exact foldl_max_mem_cons xs x

lemma head?_filter_eq_find? (p : ℚ → Bool) (l : List ℚ) :
    (l.filter p).head? = l.find? p := by
  induction l with
  | nil => rfl
  | cons a t ih =>
    by_cases ha : p a
    · rw [List.filter_cons_of_pos ha, List.find?_cons_of_pos _ ha]
      rfl
    · rw [List.filter_cons_of_neg (by simpa using ha),
        List.find?_cons_of_neg _ (by simpa using ha)]
      exact ih

lemma toFinset_card_lt_of_not_nodup (l : List ℚ) (h : ¬ l.Nodup) :
    l.toFinset.card < l.length := by
  induction l with
  | nil => exact absurd List.nodup_nil h
  | cons a t ih =>
    rw [List.nodup_cons] at h
    push_neg at h
    rw [List.toFinset_cons, List.length_cons]
    by_cases hat : a ∈ t
    · rw [Finset.insert_eq_self.mpr (List.mem_toFinset.mpr hat)]
      have := List.toFinset_card_le t
      omega
    · have hnt : ¬ t.Nodup := h hat
      have h1 := ih hnt
      have h2 := Finset.card_insert_le a t.toFinset
      omega

lemma dedupF_toFinset (l : List ℚ) : (dedupF l).toFinset = l.toFinset := by
  ext x
  simp [List.mem_toFinset, mem_dedupF]

lemma dedupF_length (l : List ℚ) : (dedupF l).length = l.toFinset.card := by
  rw [← dedupF_toFinset, List.toFinset_card_of_nodup (dedupF_nodup l)]

lemma map_snd_map_pair (dV : List ℚ) (f : ℚ → Nat) :
    (dV.map (fun v => (v, f v))).map (fun e => e.2) = dV.map f := by
  rw [List.map_map]
  rfl

lemma map_fst_filter_snd (dV : List ℚ) (f : ℚ → Nat) (m : Nat) :
    ((dV.map (fun v => (v, f v))).filter (fun e => e.2 == m)).map (fun e => e.1) =
      dV.filter (fun v => f v == m) := by
  induction dV with
  | nil => rfl
  | cons a t ih =>
    simp only [List.map_cons]
    by_cases hm : (f a == m) = true
    · rw [List.filter_cons_of_pos (p := fun e : ℚ × Nat => e.2 == m) hm,
        List.filter_cons_of_pos (p := fun v => f v == m) hm, List.map_cons, ih]
    · rw [List.filter_cons_of_neg (p := fun e : ℚ × Nat => e.2 == m) (by simpa using hm),
        List.filter_cons_of_neg (p := fun v => f v == m) (by simpa using hm), ih]

/-- The `modes` list computed by the source is the list of distinct values of
`V`, in first-occurrence order, whose count is maximal. -/
lemma modes_eq (V : List ℚ) :
    ((freqMap V).filter
        (fun e => e.2 == jsMaxNat ((freqMap V).map (fun e => e.2)))).map (fun e => e.1) =
      (dedupF V).filter (fun v => V.count v == maxFreqSpec V) := by
  rw [freqMap_eq, map_snd_map_pair, map_fst_filter_snd]
  rfl

/-- The maximal frequency is attained by some distinct value of a non-empty
list. -/
lemma maxFreqSpec_attained (V : List ℚ) (h : V ≠ []) :
    ∃ v ∈ dedupF V, V.count v = maxFreqSpec V := by
  obtain ⟨x, hx⟩ := List.exists_mem_of_ne_nil V h
  have hd : dedupF V ≠ [] := List.ne_nil_of_mem ((mem_dedupF V x).mpr hx)
  have hm : (dedupF V).map (fun v => V.count v) ≠ [] := by
    simpa [List.map_eq_nil_iff] using hd
  have := jsMaxNat_mem _ hm
  rw [List.mem_map] at this
  obtain ⟨v, hv, hcv⟩ := this
  exact ⟨v, hv, hcv⟩

/-- The filtered modes list exhausts the distinct values exactly when `V` has
no duplicate. -/
lemma modes_length_iff (V : List ℚ) (h : V ≠ []) :
    ((dedupF V).filter (fun v => V.count v == maxFreqSpec V)).length = V.length ↔
      V.Nodup := by
  constructor
  · intro hlen
    by_contra hnd
    have h1 : ((dedupF V).filter (fun v => V.count v == maxFreqSpec V)).length ≤
        (dedupF V).length := List.length_filter_le _ _
    have h2 : (dedupF V).length = V.toFinset.card := dedupF_length V
    have h3 : V.toFinset.card < V.length := toFinset_card_lt_of_not_nodup V hnd
    omega
  · intro hnd
    have hone : maxFreqSpec V = 1 := by
      obtain ⟨v, hv, hcv⟩ := maxFreqSpec_attained V h
      rw [← hcv]
      exact List.count_eq_one_of_mem hnd ((mem_dedupF V v).mp hv)
    have hall : ∀ v ∈ dedupF V, (V.count v == maxFreqSpec V) = true := by
      intro v hv
      rw [hone, beq_iff_eq]
      exact List.count_eq_one_of_mem hnd ((mem_dedupF V v).mp hv)
    rw [List.filter_eq_self.mpr hall, dedupF_length, List.toFinset_card_of_nodup hnd]

/-- C1 (amended): for every non-empty list of numbers, the reported mode is
null exactly when all values are distinct (only then does the number of
distinct modes equal the count); otherwise it is the first value of maximal
frequency in order of first occurrence in the input (the frequency map's
insertion order) — not in ascending numeric order.  The claim's concrete
examples do hold: for `[1, 1, 2, 2, 3]` the mode is `1` (that input is
already ascending) and for `[1, 2, 3]` it is null. -/
theorem c1_mode_amended :
    (∀ V : List ℚ, V.length ≠ 0 →
      ∃ s, calculateStatistics V = .ok s ∧
        (s.mode = none ↔ V.Nodup) ∧
        (¬ V.Nodup →
          s.mode = (dedupF V).find? (fun v => V.count v == maxFreqSpec V))) ∧
    (∃ s, calculateStatistics [1, 1, 2, 2, 3] = .ok s ∧ s.mode = some 1) ∧
    (∃ s, calculateStatistics [1, 2, 3] = .ok s ∧ s.mode = none) := by
  refine ⟨?_, ⟨_, rfl, rfl⟩, ⟨_, rfl, rfl⟩⟩
  intro V h
  have hVne : V ≠ [] := fun hV => h (by simp [hV])
  simp only [calculateStatistics, if_neg h]
  refine ⟨_, rfl, ?_⟩
  rw [modes_eq]
  have hfind : ¬ V.Nodup →
      ((dedupF V).filter (fun v => V.count v == maxFreqSpec V)).head? ≠ none := by
    intro _
    rw [head?_filter_eq_find?]
    obtain ⟨v, hv, hcv⟩ := maxFreqSpec_attained V hVne
    have hsome : (List.find? (fun v => V.count v == maxFreqSpec V) (dedupF V)).isSome :=
      List.find?_isSome.mpr ⟨v, hv, by rw [beq_iff_eq]; exact hcv⟩
    intro hn
    rw [hn] at hsome
    simp at hsome
  by_cases hnd : V.Nodup
  · rw [if_pos ((modes_length_iff V hVne).mpr hnd)]
    simp [hnd]
  · rw [if_neg (fun hl => hnd ((modes_length_iff V hVne).mp hl))]
    constructor
    · exact ⟨fun hh => absurd hh (hfind hnd), fun h2 => absurd h2 hnd⟩
    · intro _
      rw [head?_filter_eq_find?]

/-- C1 counterexample: for `V = [2, 2, 1, 1]` every value is equally frequent
(each occurs twice), yet the code reports mode `2` — neither null (as the
"all tie" reading of the claim demands) nor `1` (the first of the
maximal-frequency set `{1, 2}` in ascending numeric order): the code picks the
first maximal-frequency value in input order, and nullity needs all values
distinct. -/
theorem c1_mode_counterexample :
    (calculateStatistics [2, 2, 1, 1]).map (fun s => s.mode) = .ok (some 2) ∧
    (∀ v ∈ ([2, 2, 1, 1] : List ℚ), ([2, 2, 1, 1] : List ℚ).count v = 2) ∧
    (1 : ℚ) ∈ ([2, 2, 1, 1] : List ℚ) ∧
    (∀ v ∈ ([2, 2, 1, 1] : List ℚ), (1 : ℚ) ≤ v) :=
  ⟨rfl, by decide, by decide, by decide⟩

/-- C1 witness: the universal part of `c1_mode_amended` instantiated at
`[1, 1, 2, 2, 3]`, whose hypothesis is discharged concretely. -/
theorem c1_mode_amended_witness :
    ([1, 1, 2, 2, 3] : List ℚ).length ≠ 0 ∧
    (∃ s, calculateStatistics [1, 1, 2, 2, 3] = .ok s ∧
      (s.mode = none ↔ ([1, 1, 2, 2, 3] : List ℚ).Nodup) ∧
      (¬ ([1, 1, 2, 2, 3] : List ℚ).Nodup →
        s.mode = (dedupF [1, 1, 2, 2, 3]).find?
          (fun v => ([1, 1, 2, 2, 3] : List ℚ).count v == maxFreqSpec [1, 1, 2, 2, 3]))) :=
  ⟨by decide, c1_mode_amended.1 [1, 1, 2, 2, 3] (by decide)⟩

/-- C4 witness: `c4_bounds` instantiated at `[3, 1, 2]`. -/
theorem c4_bounds_witness :
    ([3, 1, 2] : List ℚ).length ≠ 0 ∧
    (∃ s, calculateStatistics [3, 1, 2] = .ok s ∧
      s.min ≤ s.median ∧ s.median ≤ s.max ∧ s.min ≤ s.mean ∧ s.mean ≤ s.max) :=
  ⟨by decide, c4_bounds [3, 1, 2] (by decide)⟩

/-! ## Year-over-year comparison (`compareLibraryYears`) -/

/-- The value pair stored in `termsMap` for one term. -/
structure YearValues where
  year1 : Option JValue := none
  year2 : Option JValue := none
deriving DecidableEq, Repr

/-- `termsMap.set(k, v)`: in-place update of an existing key, or append at the
end — the insertion-order behaviour of a JavaScript `Map`. -/
def mapSet (m : List (String × YearValues)) (k : String) (v : YearValues) :
    List (String × YearValues) :=
  match m with
  | [] => [(k, v)]
  | (k0, v0) :: rest => if k0 = k then (k0, v) :: rest else (k0, v0) :: mapSet rest k v

/-- `termsMap.get(k)`. -/
def mapGet (m : List (String × YearValues)) (k : String) : Option YearValues :=
  match m with
  | [] => none
  | (k0, v0) :: rest => if k0 = k then some v0 else mapGet rest k

/-- One step of `year1Data.forEach`: `termsMap.set(obs.term, { year1: obs.value })`
(the whole record is replaced).  `if (obs.term)` is a truthiness test, so an
absent or empty-string term is skipped. -/
def addYear1 (m : List (String × YearValues)) (obs : Observation) :
    List (String × YearValues) :=
  match obs.term with
  | some t => if t ≠ "" then mapSet m t { year1 := obs.value } else m
  | none => m

/-- One step of `year2Data.forEach`: the existing entry (or `{}`) is spread
and its `year2` field set. -/
def addYear2 (m : List (String × YearValues)) (obs : Observation) :
    List (String × YearValues) :=
  match obs.term with
  | some t =>
    if t ≠ "" then
      let existing := (mapGet m t).getD {}
      mapSet m t { existing with year2 := obs.value }
    else m
  | none => m

/-- One entry of the `comparison` array. -/
structure ComparisonItem where
  term : String
  year1Value : Option JValue := none
  year2Value : Option JValue := none
  change : Option ℚ := none
  percentChange : Option ℚ := none
deriving DecidableEq, Repr

/-- The body of `termsMap.forEach`: `change` is added only when both values
are numbers, and `percentChange` only when additionally `year1 !== 0`. -/
def mkComparisonItem (t : String) (v : YearValues) : ComparisonItem :=
  match v.year1, v.year2 with
  | some (.num a), some (.num b) =>
    { term := t, year1Value := v.year1, year2Value := v.year2,
      change := some (b - a),
      percentChange := if a ≠ 0 then some ((b - a) / a * 100) else none }
  | _, _ => { term := t, year1Value := v.year1, year2Value := v.year2 }

/-- The pure comparison-building core of `compareLibraryYears`: build
`termsMap` from the two fetched year data sets, then map the entries, in
insertion order, to comparison items. -/
def buildComparison (year1Data year2Data : List Observation) : List ComparisonItem :=
  (year2Data.foldl addYear2 (year1Data.foldl addYear1 [])).map
    (fun e => mkComparisonItem e.1 e.2)

/-- C5: in every comparison entry, when both year values are numbers the
`change` field is `year2 - year1`; `percentChange` is present exactly when
both values are numbers and year1 is nonzero, and then equals
`change / year1 * 100`; in particular comparing `year1Value = 0` to
`year2Value = 50` yields `change = 50` with `percentChange` omitted. -/
theorem c5_percent_change :
    (∀ year1Data year2Data : List Observation,
      ∀ item ∈ buildComparison year1Data year2Data,
        (∀ a b : ℚ, item.year1Value = some (.num a) → item.year2Value = some (.num b) →
          item.change = some (b - a)) ∧
        (item.percentChange ≠ none ↔
          ∃ a b : ℚ, item.year1Value = some (.num a) ∧ item.year2Value = some (.num b) ∧
            a ≠ 0) ∧
        (∀ a c : ℚ, item.year1Value = some (.num a) → item.change = some c → a ≠ 0 →
          item.percentChange = some (c / a * 100))) ∧
    (buildComparison [{ term := some "t", value := some (.num 0) }]
        [{ term := some "t", value := some (.num 50) }] =
      [{ term := "t", year1Value := some (.num 0), year2Value := some (.num 50),
         change := some 50, percentChange := none }]) := by
  constructor
  · intro d1 d2 item hmem
    simp only [buildComparison, List.mem_map] at hmem
    obtain ⟨⟨t, v⟩, _, rfl⟩ := hmem
    rcases v with ⟨y1, y2⟩
    rcases y1 with _ | jv1
    · refine ⟨?_, ?_, ?_⟩ <;> simp [mkComparisonItem]
    · rcases jv1 with q1 | s1
      · rcases y2 with _ | jv2
        · refine ⟨?_, ?_, ?_⟩ <;> simp [mkComparisonItem]
        · rcases jv2 with q2 | s2
          · by_cases hq : q1 ≠ 0
            · refine ⟨?_, ?_, ?_⟩
              · intro a b ha hb
                simp only [mkComparisonItem] at ha hb ⊢
                obtain rfl : q1 = a := by simpa using ha
                obtain rfl : q2 = b := by simpa using hb
                rfl
              · simp only [mkComparisonItem, if_pos hq]
                constructor
                · intro _
                  exact ⟨q1, q2, rfl, rfl, hq⟩
                · intro _
                  simp
              · intro a c ha hc ha0
                simp only [mkComparisonItem, if_pos hq] at ha hc ⊢
                obtain rfl : q1 = a := by simpa using ha
                obtain rfl : q2 - q1 = c := by simpa using hc
                rfl
            · push_neg at hq
              subst hq
              refine ⟨?_, ?_, ?_⟩
              · intro a b ha hb
                simp only [mkComparisonItem] at ha hb ⊢
                obtain rfl : (0 : ℚ) = a := by simpa using ha
                obtain rfl : q2 = b := by simpa using hb
                simp
              · simp only [mkComparisonItem]
                constructor
                · intro hne
                  simp at hne
                · rintro ⟨a, b, ha, hb, ha0⟩
                  obtain rfl : (0 : ℚ) = a := by simpa using ha
                  exact absurd rfl ha0
              · intro a c ha hc ha0
                obtain rfl : (0 : ℚ) = a := by
                  simpa [mkComparisonItem] using ha
                exact absurd rfl ha0
          · refine ⟨?_, ?_, ?_⟩ <;> simp [mkComparisonItem]
      · refine ⟨?_, ?_, ?_⟩ <;> simp [mkComparisonItem]
  · have ht : ("t" : String) ≠ "" := by decide
    norm_num [buildComparison, addYear1, addYear2, mapSet, mapGet, mkComparisonItem, ht]

/-- C5 witness: the universal part of `c5_percent_change` instantiated at a
concrete comparison with a non-numeric year-1 value, membership discharged
concretely. -/
theorem c5_percent_change_witness :
    ({ term := "t", year1Value := some (.str "x") } : ComparisonItem) ∈
      buildComparison [{ term := some "t", value := some (.str "x") }] [] ∧
    ((∀ a b : ℚ,
        ({ term := "t", year1Value := some (.str "x") } : ComparisonItem).year1Value =
          some (.num a) →
        ({ term := "t", year1Value := some (.str "x") } : ComparisonItem).year2Value =
          some (.num b) →
        ({ term := "t", year1Value := some (.str "x") } : ComparisonItem).change =
          some (b - a)) ∧
      (({ term := "t", year1Value := some (.str "x") } : ComparisonItem).percentChange ≠ none ↔
        ∃ a b : ℚ,
          ({ term := "t", year1Value := some (.str "x") } : ComparisonItem).year1Value =
            some (.num a) ∧
          ({ term := "t", year1Value := some (.str "x") } : ComparisonItem).year2Value =
            some (.num b) ∧ a ≠ 0) ∧
      (∀ a c : ℚ,
        ({ term := "t", year1Value := some (.str "x") } : ComparisonItem).year1Value =
          some (.num a) →
        ({ term := "t", year1Value := some (.str "x") } : ComparisonItem).change = some c →
        a ≠ 0 →
        ({ term := "t", year1Value := some (.str "x") } : ComparisonItem).percentChange =
          some (c / a * 100))) :=
  ⟨by decide, c5_percent_change.1 [{ term := some "t", value := some (.str "x") }] [] _ (by decide)⟩

/-! ## Trend aggregation (`getTermTrend`) -/

/-- `yearMap.get(y)!.push(v)`, creating the key at the end of the map when
absent — the insertion-order behaviour of a JavaScript `Map`. -/
def pushYear (m : List (Int × List ℚ)) (y : Int) (v : ℚ) : List (Int × List ℚ) :=
  match m with
  | [] => [(y, [v])]
  | (k, vs) :: rest =>
    if k = y then (k, vs ++ [v]) :: rest else (k, vs) :: pushYear rest y v

/-- `yearMap.get(y)`. -/
def lookupYear (m : List (Int × List ℚ)) (y : Int) : Option (List ℚ) :=
  match m with
  | [] => none
  | (k, vs) :: rest => if k = y then some vs else lookupYear rest y

/-- One step of the `observations.forEach` grouping loop of `getTermTrend`.
`if (obs.sampleYear && obs.sampleYear >= startYear && obs.sampleYear <= endYear)`
is a truthiness test, so a sample year of `0` is treated as absent; only
numeric values are collected. -/
def trendStep (startYear endYear : Int) (m : List (Int × List ℚ))
    (obs : Observation) : List (Int × List ℚ) :=
  match obs.sampleYear with
  | some y =>
    if y ≠ 0 ∧ startYear ≤ y ∧ y ≤ endYear then
      match obs.value with
      | some (.num v) => pushYear m y v
      | _ => m
    else m
  | none => m

/-- Lexicographic comparison of character lists: the order used by the
comparator-less JavaScript `Array.prototype.sort()`, which compares the
string forms of the elements. -/
def lexLe : List Char → List Char → Bool
  | [], _ => true
  | _ :: _, [] => false
  | a :: as, b :: bs => if a = b then lexLe as bs else decide (a < b)

/-- The default JavaScript sort order on integers (string comparison of their
decimal forms). -/
def jsDefaultIntLe (a b : Int) : Prop :=
  lexLe (toString a).toList (toString b).toList = true

instance : DecidableRel jsDefaultIntLe := fun a b => by
  unfold jsDefaultIntLe
  exact inferInstance

/-- One per-year statistics entry of the trend result. -/
structure YearStats where
  year : Int
  count : Nat
  sum : ℚ
  average : Option ℚ
  min : Option ℚ
  max : Option ℚ
deriving DecidableEq, Repr

/-- `values.length > 0 ? Math.min(...values) : undefined`. -/
def jsMinQ : List ℚ → Option ℚ
  | [] => none
  | x :: xs => some (xs.foldl min x)

/-- `values.length > 0 ? Math.max(...values) : undefined`. -/
def jsMaxQ : List ℚ → Option ℚ
  | [] => none
  | x :: xs => some (xs.foldl max x)

/-- The entry built for year `y` by the `years.map(...)` body of
`getTermTrend`. -/
def yearStatsOf (m : List (Int × List ℚ)) (y : Int) : YearStats :=
  let values := (lookupYear m y).getD []
  let sum := values.foldl (· + ·) 0
  { year := y, count := values.length, sum := sum,
    average := if values.length > 0 then some (sum / (values.length : ℚ)) else none,
    min := jsMinQ values, max := jsMaxQ values }

/-- The result record of `getTermTrend`. -/
structure TrendResult where
  term : String
  years : List Int
  statistics : List YearStats
deriving Repr

/-- The pure aggregation core of `getTermTrend`, applied to the fetched
`@graph` observation list for the requested term. -/
def getTermTrend (graph : List Observation) (termId : String)
    (startYear endYear : Int) : TrendResult :=
  let yearMap := graph.foldl (trendStep startYear endYear) []
  let years := List.insertionSort jsDefaultIntLe (yearMap.map (fun e => e.1))
  { term := termId, years := years,
    statistics := years.map (yearStatsOf yearMap) }

/-- The numeric values carried by the observations of sample year `y`, in
input order (the specification-side description of a year's data). -/
def numericValsInYear (graph : List Observation) (y : Int) : List ℚ :=
  graph.filterMap (fun o =>
    match o.sampleYear, o.value with
    | some y0, some (.num v) => if y0 = y then some v else none
    | _, _ => none)

lemma lookupYear_pushYear_same (m : List (Int × List ℚ)) (y : Int) (v : ℚ) :
    lookupYear (pushYear m y v) y = some ((lookupYear m y).getD [] ++ [v]) := by
  induction m with
  | nil => simp [pushYear, lookupYear]
  | cons e rest ih =>
    rcases e with ⟨k, vs⟩
    by_cases hk : k = y
    · subst hk
      simp [pushYear, lookupYear]
    · simp [pushYear, lookupYear, hk, ih]

lemma lookupYear_pushYear_other (m : List (Int × List ℚ)) (y y' : Int) (v : ℚ)
    (h : ¬ y' = y) : lookupYear (pushYear m y v) y' = lookupYear m y' := by
  have h2 : ¬ y = y' := fun hc => h hc.symm
  induction m with
  | nil => simp [pushYear, lookupYear, h2]
  | cons e rest ih =>
    rcases e with ⟨k, vs⟩
    by_cases hk : k = y
    · subst hk
      simp [pushYear, lookupYear, h2]
    · simp [pushYear, lookupYear, hk, ih]

lemma mem_keys_iff_lookupYear (m : List (Int × List ℚ)) (y : Int) :
    y ∈ m.map (fun e => e.1) ↔ lookupYear m y ≠ none := by
  induction m with
  | nil => simp [lookupYear]
  | cons e rest ih =>
    rcases e with ⟨k, vs⟩
    by_cases hk : k = y
    · subst hk
      simp [lookupYear]
    · have hk2 : ¬ y = k := fun hc => hk hc.symm
      simp [lookupYear, hk, hk2, ih]

/-- The collected values for a year, across a whole fold of `trendStep`:
years satisfying the (truthy) range test accumulate exactly the numeric
values of their observations, all other keys are untouched. -/
lemma lookupYear_foldl (s e : Int) (graph : List Observation) :
    ∀ (m : List (Int × List ℚ)) (y : Int),
      lookupYear (graph.foldl (trendStep s e) m) y =
        if y ≠ 0 ∧ s ≤ y ∧ y ≤ e then
          match lookupYear m y, numericValsInYear graph y with
          | none, [] => none
          | none, l => some l
          | some xs, l => some (xs ++ l)
        else lookupYear m y := by
  induction graph with
  | nil =>
    intro m y
    by_cases hc : y ≠ 0 ∧ s ≤ y ∧ y ≤ e
    · rw [if_pos hc]
      show lookupYear m y = _
      rcases hm : lookupYear m y with _ | xs <;> simp [numericValsInYear]
    · rw [if_neg hc]
      rfl
  | cons o rest ih =>
    intro m y
    rw [List.foldl_cons]
    rcases ho : o.sampleYear with _ | y0
    · have hstep : trendStep s e m o = m := by
        simp [trendStep, ho]
      have hvals : numericValsInYear (o :: rest) y = numericValsInYear rest y := by
        simp [numericValsInYear, List.filterMap_cons, ho]
      rw [hstep, hvals, ih]
    · rcases hv : o.value with _ | jv
      · have hstep : trendStep s e m o = m := by
          simp [trendStep, ho, hv]
        have hvals : numericValsInYear (o :: rest) y = numericValsInYear rest y := by
          simp [numericValsInYear, List.filterMap_cons, ho, hv]
        rw [hstep, hvals, ih]
      · rcases jv with v | sv
        · by_cases hcy0 : y0 ≠ 0 ∧ s ≤ y0 ∧ y0 ≤ e
          · have hstep : trendStep s e m o = pushYear m y0 v := by
              simp [trendStep, ho, hv, hcy0]
            rw [hstep, ih]
            by_cases hyy : y0 = y
            · subst hyy
              have hvals : numericValsInYear (o :: rest) y0 =
                  v :: numericValsInYear rest y0 := by
                simp [numericValsInYear, List.filterMap_cons, ho, hv]
              rw [hvals, if_pos hcy0, if_pos hcy0, lookupYear_pushYear_same]
              rcases hm : lookupYear m y0 with _ | xs
              · simp
              · rcases hr : numericValsInYear rest y0 with _ | ⟨a, l⟩ <;> simp
            · have hvals : numericValsInYear (o :: rest) y =
                  numericValsInYear rest y := by
                simp [numericValsInYear, List.filterMap_cons, ho, hv, hyy]
              rw [hvals, lookupYear_pushYear_other m y0 y v (fun hc => hyy hc.symm)]
          · have hstep : trendStep s e m o = m := by
              simp [trendStep, ho, hv, hcy0]
            by_cases hyy : y0 = y
            · subst hyy
              rw [hstep, ih, if_neg hcy0, if_neg hcy0]
            · have hvals : numericValsInYear (o :: rest) y =
                  numericValsInYear rest y := by
                simp [numericValsInYear, List.filterMap_cons, ho, hv, hyy]
              rw [hstep, hvals, ih]
        · have hstep : trendStep s e m o = m := by
            simp [trendStep, ho, hv]
          have hvals : numericValsInYear (o :: rest) y = numericValsInYear rest y := by
            simp [numericValsInYear, List.filterMap_cons, ho, hv]
          rw [hstep, hvals, ih]

/-- Specialization of `lookupYear_foldl` to the empty starting map. -/
lemma lookupYear_yearMap (s e : Int) (graph : List Observation) (y : Int) :
    lookupYear (graph.foldl (trendStep s e) []) y =
      if y ≠ 0 ∧ s ≤ y ∧ y ≤ e ∧ numericValsInYear graph y ≠ [] then
        some (numericValsInYear graph y)
      else none := by
  rw [lookupYear_foldl]
  by_cases hc : y ≠ 0 ∧ s ≤ y ∧ y ≤ e
  · rcases hr : numericValsInYear graph y with _ | ⟨a, l⟩ <;>
      simp [lookupYear, hr, hc]
  · have hc2 : ¬ (y ≠ 0 ∧ s ≤ y ∧ y ≤ e ∧ numericValsInYear graph y ≠ []) :=
      fun hcc => hc ⟨hcc.1, hcc.2.1, hcc.2.2.1⟩
    simp [lookupYear, hc, hc2]

/-- C6 (amended): the trend result lists per-year statistics exactly for the
years in the inclusive range that are nonzero (a sample year of `0` is falsy
and is treated as absent) and have at least one numeric observation; all
other years are absent from both the year list and the statistics list, and
each listed year carries the count, sum, average, min and max of its numeric
values. -/
theorem c6_trend_amended (graph : List Observation) (termId : String)
    (startYear endYear : Int) :
    ((getTermTrend graph termId startYear endYear).statistics.map (fun st => st.year) =
      (getTermTrend graph termId startYear endYear).years) ∧
    (∀ y : Int,
      y ∈ (getTermTrend graph termId startYear endYear).years ↔
        y ≠ 0 ∧ startYear ≤ y ∧ y ≤ endYear ∧ numericValsInYear graph y ≠ []) ∧
    (∀ st ∈ (getTermTrend graph termId startYear endYear).statistics,
      st.count = (numericValsInYear graph st.year).length ∧
      st.sum = (numericValsInYear graph st.year).sum ∧
      st.average = some (st.sum / (st.count : ℚ)) ∧
      st.min = (numericValsInYear graph st.year).min? ∧
      st.max = (numericValsInYear graph st.year).max?) := by
  have hyears : (getTermTrend graph termId startYear endYear).years =
      List.insertionSort jsDefaultIntLe
        ((graph.foldl (trendStep startYear endYear) []).map (fun e => e.1)) := rfl
  have hstats : (getTermTrend graph termId startYear endYear).statistics =
      (getTermTrend graph termId startYear endYear).years.map
        (yearStatsOf (graph.foldl (trendStep startYear endYear) [])) := rfl
  have hmem : ∀ y : Int, y ∈ (getTermTrend graph termId startYear endYear).years ↔
      (y ≠ 0 ∧ startYear ≤ y ∧ y ≤ endYear ∧ numericValsInYear graph y ≠ []) := by
    intro y
    rw [hyears, List.Perm.mem_iff (List.perm_insertionSort _ _),
      mem_keys_iff_lookupYear, lookupYear_yearMap]
    by_cases hbc : y ≠ 0 ∧ startYear ≤ y ∧ y ≤ endYear ∧ numericValsInYear graph y ≠ []
    · simp [hbc]
    · simp [hbc]
  refine ⟨?_, hmem, ?_⟩
  · rw [hstats, List.map_map]
    have hcomp : ((fun st : YearStats => st.year) ∘
        yearStatsOf (graph.foldl (trendStep startYear endYear) [])) = fun y => y := by
      funext y
      rfl
    rw [hcomp, show (fun y : Int => y) = @id Int from rfl, List.map_id]
  · intro st hst
    rw [hstats, List.mem_map] at hst
    obtain ⟨y, hy, rfl⟩ := hst
    have hc := (hmem y).mp hy
    have hlook : lookupYear (graph.foldl (trendStep startYear endYear) []) y =
        some (numericValsInYear graph y) := by
      rw [lookupYear_yearMap, if_pos hc]
    have hyear : (yearStatsOf (graph.foldl (trendStep startYear endYear) []) y).year = y :=
      rfl
    rw [hyear]
    simp only [yearStatsOf, hlook, Option.getD_some]
    rcases hvals : numericValsInYear graph y with _ | ⟨a, l⟩
    · exact absurd hvals hc.2.2.2
    · refine ⟨trivial, (List.sum_eq_foldl).symm, ?_, rfl, rfl⟩
      rw [if_pos (by simp)]

/-- C6 counterexample: an observation with numeric value `5` and sample year
`0`, with `0` inside the requested inclusive range `[-1, 1]`, produces a
trend with no year entry at all — the truthiness test `obs.sampleYear && ...`
drops year `0`, contradicting the claim that every in-range year with a
numeric observation is listed. -/
theorem c6_trend_counterexample :
    (getTermTrend [{ sampleYear := some 0, value := some (.num 5) }] "t" (-1) 1).years
      = [] ∧
    (getTermTrend [{ sampleYear := some 0, value := some (.num 5) }] "t" (-1) 1).statistics
      = [] ∧
    ((-1 : Int) ≤ 0 ∧ (0 : Int) ≤ 1) ∧
    ({ sampleYear := some 0, value := some (.num 5) } : Observation).sampleYear = some 0 ∧
    ({ sampleYear := some 0, value := some (.num 5) } : Observation).value =
      some (.num 5) :=
  ⟨rfl, rfl, by decide, rfl, rfl⟩

/-- C6 witness: `c6_trend_amended` instantiated at a one-observation graph
with sample year 2018 and the range 2015–2020. -/
theorem c6_trend_amended_witness :
    ((getTermTrend [{ sampleYear := some 2018, value := some (.num 5) }] "t" 2015
        2020).statistics.map (fun st => st.year) =
      (getTermTrend [{ sampleYear := some 2018, value := some (.num 5) }] "t" 2015
        2020).years) ∧
    (∀ y : Int,
      y ∈ (getTermTrend [{ sampleYear := some 2018, value := some (.num 5) }] "t" 2015
          2020).years ↔
        y ≠ 0 ∧ 2015 ≤ y ∧ y ≤ 2020 ∧
          numericValsInYear [{ sampleYear := some 2018, value := some (.num 5) }] y ≠ []) ∧
    (∀ st ∈ (getTermTrend [{ sampleYear := some 2018, value := some (.num 5) }] "t" 2015
        2020).statistics,
      st.count =
        (numericValsInYear [{ sampleYear := some 2018, value := some (.num 5) }]
          st.year).length ∧
      st.sum =
        (numericValsInYear [{ sampleYear := some 2018, value := some (.num 5) }]
          st.year).sum ∧
      st.average = some (st.sum / (st.count : ℚ)) ∧
      st.min =
        (numericValsInYear [{ sampleYear := some 2018, value := some (.num 5) }]
          st.year).min? ∧
      st.max =
        (numericValsInYear [{ sampleYear := some 2018, value := some (.num 5) }]
          st.year).max?) :=
  c6_trend_amended [{ sampleYear := some 2018, value := some (.num 5) }] "t" 2015 2020

/-! ## Term-dictionary cache (`loadTermsFromFile`) -/

/-- The outcome of one attempted read+parse of the local terms file: parsed
data whose `terms` field may be absent, or a read/parse failure (the `catch`
branch covers both). -/
inductive ReadResult where
  | ok (terms : Option (List Term))
  | err
deriving DecidableEq, Repr

/-- `loadTermsFromFile` as a state transformer over the module-level
`termsCache`: the result, the new cache, and whether the file was read.
`data.terms || []` and the final `termsCache || []` are the source's
fallbacks; the `catch` branch logs, caches `[]` and returns `[]` — it is a
total function, nothing propagates. -/
def loadTermsFromFile (cache : Option (List Term)) (r : ReadResult) :
    List Term × Option (List Term) × Bool :=
  match cache with
  | some ts => (ts, some ts, false)
  | none =>
    match r with
    | .ok dataTerms =>
      let ts := dataTerms.getD []
      (ts, some ts, true)
    | .err => ([], some [], true)

/-- A sequence of calls against the process-wide cache, one read outcome per
call (unused by calls that hit the cache): the list of results, the final
cache, and the number of file reads performed. -/
def runLoads (cache : Option (List Term)) :
    List ReadResult → List (List Term) × Option (List Term) × Nat
  | [] => ([], cache, 0)
  | r :: rs =>
    let step := loadTermsFromFile cache r
    let rest := runLoads step.2.1 rs
    (step.1 :: rest.1, rest.2.1, (if step.2.2 then 1 else 0) + rest.2.2)

lemma loadTermsFromFile_caches (r : ReadResult) :
    (loadTermsFromFile none r).2.1 = some (loadTermsFromFile none r).1 := by
  cases r <;> rfl

lemma runLoads_cached (ts : List Term) (rs : List ReadResult) :
    runLoads (some ts) rs = (List.replicate rs.length ts, some ts, 0) := by
  induction rs with
  | nil => rfl
  | cons r rs ih =>
    show (ts :: (runLoads (some ts) rs).1, (runLoads (some ts) rs).2.1,
      (if false then 1 else 0) + (runLoads (some ts) rs).2.2) = _
    rw [ih]
    rfl

/-- C7: across any sequence of calls starting from the empty cache, the terms
file is read at most once — every call after the first returns the first
call's result without reading — and a failing read yields the empty sequence
(with the failure swallowed: the embedded function is total). -/
theorem c7_cache_reads_once (r : ReadResult) (rs : List ReadResult) :
    (runLoads none (r :: rs)).2.2 ≤ 1 ∧
    (runLoads (loadTermsFromFile none r).2.1 rs).2.2 = 0 ∧
    (∀ out ∈ (runLoads (loadTermsFromFile none r).2.1 rs).1,
      out = (loadTermsFromFile none r).1) ∧
    loadTermsFromFile none .err = ([], some [], true) := by
  have hc := loadTermsFromFile_caches r
  have hrest := runLoads_cached (loadTermsFromFile none r).1 rs
  refine ⟨?_, ?_, ?_, rfl⟩
  · show (if (loadTermsFromFile none r).2.2 then 1 else 0) +
      (runLoads (loadTermsFromFile none r).2.1 rs).2.2 ≤ 1
    rw [hc, hrest]
    cases (loadTermsFromFile none r).2.2 <;> simp
  · rw [hc, hrest]
  · intro out hout
    rw [hc, hrest] at hout
    exact List.eq_of_mem_replicate hout
/-- C7 witness: `c7_cache_reads_once` instantiated at a failing first read
followed by two more calls. -/
theorem c7_cache_reads_once_witness :
    (runLoads none (.err :: [.ok (some [{ atId := "t" }]), .err])).2.2 ≤ 1 ∧
    (runLoads (loadTermsFromFile none .err).2.1 [.ok (some [{ atId := "t" }]), .err]).2.2
      = 0 ∧
    (∀ out ∈ (runLoads (loadTermsFromFile none .err).2.1
        [.ok (some [{ atId := "t" }]), .err]).1,
      out = (loadTermsFromFile none .err).1) ∧
    loadTermsFromFile none .err = ([], some [], true) :=
  c7_cache_reads_once .err [.ok (some [{ atId := "t" }]), .err]

/-! ## CSV export (`exportToCSV`) -/

/-- Double-quote a string field.  The source performs no escaping, so an
embedded quote is emitted as-is. -/
def csvQuote (s : String) : String := "\"" ++ s ++ "\""

/-- The string interpolation of a value into the CSV row.  Integral numbers
print as decimal integers, exactly as in JavaScript; the rendering of
non-integral numbers differs from JavaScript's shortest-decimal form, which
no claim depends on. -/
def jsValueToString : JValue → String
  | .num q => if q.den = 1 then toString q.num else toString q
  | .str s => s

/-- `${x}` for the optional `name` field: an `undefined` name interpolates as
the string `undefined`. -/
def nameCSVString : Option String → String
  | some n => n
  | none => "undefined"

/-- `typeof obs.library === 'object' ? obs.library['@id'] || obs.library.name : obs.library || ''`
as interpolated into the CSV template. -/
def libraryCSVString : Option LibField → String
  | none => ""
  | some (.str s) => s
  | some (.obj aid name) =>
    match aid with
    | some i => if i = "" then nameCSVString name else i
    | none => nameCSVString name

/-- One CSV data row, in the source's fixed column order.  `value` and
`sampleYear` are unquoted; `obs.sampleYear || ''` is a truthiness fallback
(year 0 prints empty). -/
def csvRow (o : Observation) : String :=
  String.intercalate ","
    [csvQuote o.atId,
     csvQuote (o.term.getD ""),
     (match o.value with
      | some v => jsValueToString v
      | none => ""),
     csvQuote (libraryCSVString o.library),
     (match o.sampleYear with
      | some y => if y = 0 then "" else toString y
      | none => ""),
     csvQuote (o.targetGroup.getD ""),
     csvQuote (o.modified.getD "")]

/-- `headers.join(',')`. -/
def csvHeader : String :=
  String.intercalate ","
    ["@id", "term", "value", "library", "sampleYear", "targetGroup", "modified"]

/-- `exportToCSV` from the source: empty string for an empty input, otherwise
the header line followed by one row per observation, accumulated by `+=`. -/
def exportToCSV (observations : List Observation) : String :=
  if observations.length = 0 then ""
  else observations.foldl (fun csv o => csv ++ (csvRow o ++ "\n")) (csvHeader ++ "\n")

/-- The claim-side body: one line per observation, in input order. -/
def csvBody : List Observation → String
  | [] => ""
  | o :: os => (csvRow o ++ "\n") ++ csvBody os

lemma foldl_csv_append (l : List Observation) :
    ∀ acc : String,
      l.foldl (fun csv o => csv ++ (csvRow o ++ "\n")) acc = acc ++ csvBody l := by
  induction l with
  | nil =>
    intro acc
    show acc = acc ++ ""
    rw [String.append_empty]
  | cons o os ih =>
    intro acc
    show os.foldl _ (acc ++ (csvRow o ++ "\n")) = _
    rw [ih, csvBody, String.append_assoc]

/-- C8: exporting zero observations yields the empty string (no header-only
output); exporting a non-empty list yields the fixed header line
`@id,term,value,library,sampleYear,targetGroup,modified` followed by one line
per observation in input order; string fields are double-quoted with embedded
quotes left unescaped. -/
theorem c8_csv_export :
    (exportToCSV [] = "") ∧
    (∀ (o : Observation) (os : List Observation),
      exportToCSV (o :: os) =
        "@id,term,value,library,sampleYear,targetGroup,modified" ++ "\n" ++
          csvBody (o :: os)) ∧
    (∀ s : String, csvQuote s = "\"" ++ s ++ "\"") ∧
    (csvQuote "a\"b" = "\"a\"b\"") := by
  refine ⟨rfl, ?_, fun s => rfl, rfl⟩
  intro o os
  show (o :: os).foldl _ (csvHeader ++ "\n") = _
  rw [foldl_csv_append, String.append_assoc]
  rfl

/-- C8 witness: `c8_csv_export`'s per-row shape at a concrete two-element
input, including an embedded quote left unescaped. -/
theorem c8_csv_export_witness :
    exportToCSV
        [{ atId := "o1", term := some "Folk54", value := some (.num 7),
           sampleYear := some 2018 },
         { atId := "o2", term := some "a\"b" }] =
      "@id,term,value,library,sampleYear,targetGroup,modified" ++ "\n" ++
        csvBody
          [{ atId := "o1", term := some "Folk54", value := some (.num 7),
             sampleYear := some 2018 },
           { atId := "o2", term := some "a\"b" }] :=
  c8_csv_export.2.1
    { atId := "o1", term := some "Folk54", value := some (.num 7),
      sampleYear := some 2018 }
    [{ atId := "o2", term := some "a\"b" }]

/-! ## Library observation filtering (`getLibraryObservations`) -/

/-- `s.includes(sub)`: contiguous substring containment. -/
def strIncludes (s sub : String) : Bool := decide (sub.toList <:+: s.toList)

/-- The library half of the filter predicate:
`obs.library && (typeof obs.library === 'string' ? obs.library.includes(libraryId) : obs.library['@id']?.includes(libraryId))`.
An absent library and the empty string are falsy and never match; an object
matches through its optional `@id` (optional chaining yields `undefined`,
falsy, when `@id` is absent). -/
def libMatch (libraryId : String) : Option LibField → Bool
  | none => false
  | some (.str s) => if s = "" then false else strIncludes s libraryId
  | some (.obj aid _) =>
    match aid with
    | some i => strIncludes i libraryId
    | none => false

/-- `year ? obs.sampleYear === year : true`: the year filter applies only for
a truthy (present and nonzero) year argument. -/
def yearMatchB (year : Option Int) (sampleYear : Option Int) : Bool :=
  match year with
  | some y => if y = 0 then true else sampleYear == some y
  | none => true

/-- The client-side filter of `getLibraryObservations`, applied to the
fetched `@graph` list.  The term filter is applied server-side by the API and
is part of the fetch, not of this predicate. -/
def getLibraryObservations (graph : List Observation) (libraryId : String)
    (year : Option Int) : List Observation :=
  graph.filter (fun o => libMatch libraryId o.library && yearMatchB year o.sampleYear)

/-- The claim-side library-match predicate, stated in the claim's vocabulary:
a non-empty string library containing `libraryId` as a substring, or a
structured library whose `@id` contains `libraryId`. -/
def claimLibMatch (libraryId : String) : Option LibField → Prop
  | some (.str s) => s ≠ "" ∧ libraryId.toList <:+: s.toList
  | some (.obj (some i) _) => libraryId.toList <:+: i.toList
  | some (.obj none _) => False
  | none => False

instance (libraryId : String) : (lf : Option LibField) →
    Decidable (claimLibMatch libraryId lf)
  | some (.str _) => inferInstanceAs (Decidable (_ ∧ _))
  | some (.obj (some _) _) => inferInstanceAs (Decidable (_ <:+: _))
  | some (.obj none _) => inferInstanceAs (Decidable False)
  | none => inferInstanceAs (Decidable False)

/-- The claim-side year predicate: a given nonzero year must match
`sampleYear` exactly; a given year of `0` (falsy) or no year applies no
filter. -/
def claimYearMatch (year : Option Int) (sampleYear : Option Int) : Prop :=
  match year with
  | some y => y ≠ 0 → sampleYear = some y
  | none => True

instance : (year sampleYear : Option Int) → Decidable (claimYearMatch year sampleYear)
  | some _, _ => inferInstanceAs (Decidable (_ → _))
  | none, _ => inferInstanceAs (Decidable True)

lemma libMatch_eq_decide (libraryId : String) (lf : Option LibField) :
    libMatch libraryId lf = decide (claimLibMatch libraryId lf) := by
  match lf with
  | none => rfl
  | some (.str s) =>
    by_cases hs : s = ""
    · subst hs
      simp [libMatch, claimLibMatch]
    · simp only [libMatch, if_neg hs]
      show strIncludes s libraryId = _
      simp [strIncludes, claimLibMatch, hs]
  | some (.obj (some i) name) => rfl
  | some (.obj none name) => rfl

lemma yearMatchB_eq_decide (year sampleYear : Option Int) :
    yearMatchB year sampleYear = decide (claimYearMatch year sampleYear) := by
  match year with
  | none => rfl
  | some y =>
    by_cases hy : y = 0
    · subst hy
      simp [yearMatchB, claimYearMatch]
    · simp only [yearMatchB, if_neg hy]
      show (sampleYear == some y) = _
      rcases sampleYear with _ | v
      · simp [claimYearMatch, hy]
      · by_cases hv : v = y <;> simp [claimYearMatch, hy, hv]

/-- The filter of `getLibraryObservations`, in claim vocabulary. -/
lemma getLibraryObservations_eq_filter (graph : List Observation)
    (libraryId : String) (year : Option Int) :
    getLibraryObservations graph libraryId year =
      graph.filter (fun o =>
        decide (claimLibMatch libraryId o.library ∧
          claimYearMatch year o.sampleYear)) := by
  refine List.filter_congr ?_
  intro o _
  rw [Bool.decide_and, libMatch_eq_decide, yearMatchB_eq_decide]

/-- C9 counterexample: calling with the (given) year `0` returns an
observation whose `sampleYear` is 1998 — the falsy year disables the year
filter instead of being matched exactly, so the claim's "all other
observations are excluded" fails. -/
theorem c9_counterexample :
    getLibraryObservations
        [{ atId := "o1", library := some (.str "lib1"), sampleYear := some 1998 }]
        "lib1" (some 0) =
      [{ atId := "o1", library := some (.str "lib1"), sampleYear := some 1998 }] ∧
    ({ atId := "o1", library := some (.str "lib1"), sampleYear := some 1998 } :
        Observation).sampleYear ≠ some 0 :=
  ⟨by decide, by decide⟩

/-- C9 (amended): `getLibraryObservations` returns exactly the observations
whose library identifier — the string itself when non-empty, or the `@id`
field of a structured library object — contains `libraryId` as a
case-sensitive substring, and, when a nonzero year is given, whose
`sampleYear` equals that year exactly; a given year of `0` is falsy and
applies no year filter (and an absent or empty-string library never
matches). -/
theorem c9_library_filter_amended (graph : List Observation) (libraryId : String)
    (year : Option Int) :
    getLibraryObservations graph libraryId year =
      graph.filter (fun o =>
        decide (claimLibMatch libraryId o.library ∧
          claimYearMatch year o.sampleYear)) :=
  getLibraryObservations_eq_filter graph libraryId year

/-- C9 witness: the amended filter equation at a concrete graph, with a
matching and a non-matching observation. -/
theorem c9_library_filter_amended_witness :
    getLibraryObservations
        [{ atId := "o1", library := some (.str "lib1"), sampleYear := some 1998 },
         { atId := "o2", library := some (.str "other"), sampleYear := some 1998 }]
        "lib1" (some 1998) =
      List.filter
        (fun o =>
          decide (claimLibMatch "lib1" o.library ∧
            claimYearMatch (some 1998) o.sampleYear))
        [{ atId := "o1", library := some (.str "lib1"), sampleYear := some 1998 },
         { atId := "o2", library := some (.str "other"), sampleYear := some 1998 }] :=
  c9_library_filter_amended
    [{ atId := "o1", library := some (.str "lib1"), sampleYear := some 1998 },
     { atId := "o2", library := some (.str "other"), sampleYear := some 1998 }]
    "lib1" (some 1998)

/-! ## Multi-library comparison (`compareMultipleLibraries`) -/

/-- One entry of the `compareMultipleLibraries` result. -/
structure LibraryComparisonEntry where
  libraryId : String
  value : Option JValue := none
  observation : Option Observation := none
deriving DecidableEq, Repr

/-- The per-id loop of `compareMultipleLibraries`: for each requested library
id, fetch that library's observations for the term and year and keep the
first one's value, or record `null` with no observation when there is none.
`graph` models the term-filtered fetch result, which is the same for every
iteration under a deterministic upstream. -/
def compareMultipleLibraries (graph : List Observation) (libraryIds : List String)
    (year : Int) : List LibraryComparisonEntry :=
  libraryIds.map (fun libraryId =>
    match getLibraryObservations graph libraryId (some year) with
    | [] => { libraryId := libraryId, value := none, observation := none }
    | obs :: _ =>
      { libraryId := libraryId, value := obs.value, observation := some obs })

/-- C10 counterexample: with a requested year of `0`, the single entry
carries value `7` from an observation with `sampleYear` 1998, although no
observation in the set matches year `0` — the claim demands a null value
then. -/
theorem c10_counterexample :
    compareMultipleLibraries
        [{ library := some (.str "lib1"), sampleYear := some 1998,
           value := some (.num 7) }] ["lib1"] 0 =
      [{ libraryId := "lib1", value := some (.num 7),
         observation := some
           { library := some (.str "lib1"), sampleYear := some 1998,
             value := some (.num 7) } }] ∧
    (∀ o ∈ [({ library := some (.str "lib1"), sampleYear := some 1998,
               value := some (.num 7) } : Observation)], o.sampleYear ≠ some 0) :=
  ⟨by decide, by decide⟩

/-- C10 (amended): `compareMultipleLibraries` returns one entry per requested
id, in input order; an entry's value and observation come from the first
observation matching that library (per the library filter) and — when the
year is nonzero — that year exactly (a year of `0` is falsy and applies no
year filter), and are null/absent when no observation matches. -/
theorem c10_compare_libraries_amended (graph : List Observation)
    (libraryIds : List String) (year : Int) :
    ((compareMultipleLibraries graph libraryIds year).map (fun e => e.libraryId) =
      libraryIds) ∧
    compareMultipleLibraries graph libraryIds year =
      libraryIds.map (fun lid =>
        match (graph.filter (fun o =>
            decide (claimLibMatch lid o.library ∧
              claimYearMatch (some year) o.sampleYear))).head? with
        | some o => { libraryId := lid, value := o.value, observation := some o }
        | none => { libraryId := lid, value := none, observation := none }) := by
  constructor
  · rw [compareMultipleLibraries, List.map_map]
    have hcomp : ∀ lid : String,
        ((fun e : LibraryComparisonEntry => e.libraryId) ∘ fun libraryId =>
          match getLibraryObservations graph libraryId (some year) with
          | [] => { libraryId := libraryId, value := none, observation := none }
          | obs :: _ =>
            { libraryId := libraryId, value := obs.value,
              observation := some obs }) lid = lid := by
      intro lid
      show (match getLibraryObservations graph lid (some year) with
        | [] => ({ libraryId := lid, value := none, observation := none } :
            LibraryComparisonEntry)
        | obs :: _ =>
          { libraryId := lid, value := obs.value, observation := some obs }).libraryId
        = lid
      rcases getLibraryObservations graph lid (some year) with _ | ⟨o, rest⟩ <;> rfl
    rw [List.map_congr_left (fun lid _ => hcomp lid),
      show (fun lid : String => lid) = @id String from rfl, List.map_id]
  · rw [compareMultipleLibraries]
    refine List.map_congr_left ?_
    intro lid _
    rw [getLibraryObservations_eq_filter]
    rcases hl : graph.filter (fun o =>
        decide (claimLibMatch lid o.library ∧
          claimYearMatch (some year) o.sampleYear)) with _ | ⟨o, rest⟩ <;>
      rw [hl] <;> rfl

/-- C10 witness: `c10_compare_libraries_amended` at a concrete graph and two
requested ids, one with a match and one without. -/
theorem c10_compare_libraries_amended_witness :
    ((compareMultipleLibraries
        [{ library := some (.str "lib1"), sampleYear := some 2018,
           value := some (.num 7) }] ["lib1", "lib2"] 2018).map
      (fun e => e.libraryId) = ["lib1", "lib2"]) ∧
    compareMultipleLibraries
        [{ library := some (.str "lib1"), sampleYear := some 2018,
           value := some (.num 7) }] ["lib1", "lib2"] 2018 =
      ["lib1", "lib2"].map (fun lid =>
        match (([{ library := some (.str "lib1"), sampleYear := some 2018,
                   value := some (.num 7) }] : List Observation).filter (fun o =>
            decide (claimLibMatch lid o.library ∧
              claimYearMatch (some 2018) o.sampleYear))).head? with
        | some o => { libraryId := lid, value := o.value, observation := some o }
        | none => { libraryId := lid, value := none, observation := none }) :=
  c10_compare_libraries_amended
    [{ library := some (.str "lib1"), sampleYear := some 2018,
       value := some (.num 7) }] ["lib1", "lib2"] 2018

end KB

